import Mathlib

/-!
Verification of `Jupyter_notebooks/alloy_generator.py`: a Metropolis Monte
Carlo simulation of a binary substitutional alloy on an N×N periodic square
lattice.

Shallow embedding conventions:
* a lattice (numpy 2-d array of 0.0/1.0 floats) is a function
  `ℕ → ℕ → ℤ`, read at row/column indices already reduced into `[0, N)`;
* Python's `%` on integers with a positive modulus, and numpy's resolution
  of a negative index `x ∈ [-N, 0)` to `N + x`, both coincide with the
  mathematical (Euclidean) remainder, modelled by `pmod`;
* the float quantities (`Xa`, `E`, `T`, the energy delta) are modelled as
  exact rationals; the transcendental `np.exp` is modelled by `Real.exp`,
  and the Boolean outcome of the float comparison
  `np.exp(-e/kT) > np.random.uniform(0,1)` is threaded explicitly so that
  every definition stays executable;
* the process-wide random source is made explicit: the random site, the
  random direction, the uniform draw, and the random permutation of the
  initial flat array are parameters.
-/

/-- A lattice: an N×N grid of species values, `A = 1`, `B = 0`.
Only the cells with both indices in `[0, N)` are meaningful. -/
abbrev Grid := ℕ → ℕ → ℤ

/-- Euclidean remainder sending any `a : ℤ` to a natural index in `[0, N)`
(for `N ≥ 1`).  This models both Python's `a % N` on integers (whose result
is non-negative for positive `N`) and numpy's wrap-around resolution of a
possibly negative index `a ∈ [-N, N)`. -/
def pmod (a : ℤ) (N : ℕ) : ℕ := (a % (N : ℤ)).toNat

/-- Row/column index `(x - 2) % N`, as computed by `MC_swap` for the
`up`/`left` bond reads (`alloy_generator.py`, lines 70–73). -/
def swapIdxBack (N x : ℕ) : ℕ := pmod ((x : ℤ) - 2) N

/-- Row/column index `x % N`, as computed by `MC_swap` for the
`down`/`right` bond reads (`alloy_generator.py`, lines 70–73). -/
def swapIdxFwd (N x : ℕ) : ℕ := pmod (x : ℤ) N

/-- Row/column index `x - 2 % N` from the statistics scan
(`test2D`, lines 121/123).  Python parses this as `x - (2 % N)`; the
possibly negative result is then resolved by numpy's wrap-around indexing,
which for values in `[-N, N)` is exactly `pmod`. -/
def statIdxBack (N x : ℕ) : ℕ := pmod ((x : ℤ) - 2 % (N : ℤ)) N

/-- Row/column index `x % N` from the statistics scan
(`test2D`, lines 122/124). -/
def statIdxFwd (N x : ℕ) : ℕ := pmod (x : ℤ) N

/-- Neighbour selection of `MC_swap` (lines 50–62): given the selected site
`(r, c)` and the random direction `dir` (1 = up, 2 = right, 3 = down,
else = left), return `(row2, column2)`.  Note that the source computes
`column2 = (random_atom[0]-2)%N` — from the ROW index — in the `left`
branch, and that the `right`/`down` branches do not add an offset. -/
def MC_neighbor (N r c dir : ℕ) : ℕ × ℕ :=
  if dir = 1 then (pmod ((r : ℤ) - 2) N, c)
  else if dir = 2 then (r, pmod (c : ℤ) N)
  else if dir = 3 then (pmod (r : ℤ) N, c)
  else (r, pmod ((r : ℤ) - 2) N)

/-- The sum `Bonds` of the four cells read around site `(r, c)` by
`MC_swap`'s energy computation (lines 70–82):
`alloy[down, c] + alloy[up, c] + alloy[r, right] + alloy[r, left]`
with `up = (r-2)%N`, `down = r%N`, `left = (c-2)%N`, `right = c%N`. -/
def bondsAt (N : ℕ) (L : Grid) (r c : ℕ) : ℤ :=
  L (swapIdxFwd N r) c + L (swapIdxBack N r) c
    + L r (swapIdxFwd N c) + L r (swapIdxBack N c)

/-- The energy delta `e` of `MC_swap` (lines 65–95): `0` when the two
selected atoms are equal, otherwise
`E * (End1 + End2 - Initial1 - Initial2)` with the `Initial`/`End`
unlike-bond counts assigned according to `atom1`'s species. -/
def energyDelta (N : ℕ) (L : Grid) (E : ℚ) (r1 c1 r2 c2 : ℕ) : ℚ :=
  if L r1 c1 = L r2 c2 then 0
  else if L r1 c1 = 0 then
    E * ((4 - bondsAt N L r1 c1 + bondsAt N L r2 c2
      - bondsAt N L r1 c1 - (4 - bondsAt N L r2 c2) : ℤ) : ℚ)
  else
    E * ((bondsAt N L r1 c1 + (4 - bondsAt N L r2 c2)
      - (4 - bondsAt N L r1 c1) - bondsAt N L r2 c2 : ℤ) : ℚ)

/-- In-place assignment `alloy[r, c] = v`. -/
def setCell (L : Grid) (r c : ℕ) (v : ℤ) : Grid :=
  fun i j => if i = r ∧ j = c then v else L i j

/-- Boltzmann constant `8.617332e-5` (eV/K) from line 45, as an exact
rational. -/
def kB : ℚ := 8617332 / 10 ^ 11

/-- The condition of the `elif` branch of `MC_swap` (line 100):
`np.exp(-e/kT) > u`, where `u` is the uniform draw from `[0, 1)` and
`kT = kB * T` (line 45).  The float computation is idealised over `ℝ`. -/
def elifCond (N : ℕ) (L : Grid) (E T : ℚ) (r1 c1 dir : ℕ) (u : ℝ) : Prop :=
  u < Real.exp (((-(energyDelta N L E r1 c1
      (MC_neighbor N r1 c1 dir).1 (MC_neighbor N r1 c1 dir).2) / (kB * T) : ℚ) : ℝ))

/-- One Metropolis step (lines 45–103) with the Boolean outcome `acc2` of
the float comparison `np.exp(-e/kT) > np.random.uniform(0,1)` passed in
explicitly: if `e < 0` swap, else if `acc2` swap, else leave the lattice
unchanged.  The two assignments of lines 98–99 (and 101–102) are the two
nested `setCell`s, the later write winning on aliasing. -/
def MC_swap_b (N : ℕ) (L : Grid) (E T : ℚ) (r1 c1 dir : ℕ) (acc2 : Bool) : Grid :=
  if energyDelta N L E r1 c1 (MC_neighbor N r1 c1 dir).1 (MC_neighbor N r1 c1 dir).2 < 0 then
    setCell (setCell L r1 c1 (L (MC_neighbor N r1 c1 dir).1 (MC_neighbor N r1 c1 dir).2))
      (MC_neighbor N r1 c1 dir).1 (MC_neighbor N r1 c1 dir).2 (L r1 c1)
  else if acc2 then
    setCell (setCell L r1 c1 (L (MC_neighbor N r1 c1 dir).1 (MC_neighbor N r1 c1 dir).2))
      (MC_neighbor N r1 c1 dir).1 (MC_neighbor N r1 c1 dir).2 (L r1 c1)
  else L

/-- One Metropolis step (lines 45–103), with the uniform draw `u` and a
decision procedure `h2` for the idealised real comparison of the `elif`
branch: the step swaps the two selected cells when `e < 0`, otherwise
exactly when `np.exp(-e/kT) > u`. -/
def MC_swap (N : ℕ) (L : Grid) (E T : ℚ) (r1 c1 dir : ℕ) (u : ℝ)
    (h2 : Decidable (elifCond N L E T r1 c1 dir u)) : Grid :=
  MC_swap_b N L E T r1 c1 dir (@decide (elifCond N L E T r1 c1 dir u) h2)

/-- The driver loop of `Create_alloy` (lines 28–29): fold `MC_swap` over a
list of per-step random choices `(r1, c1, dir, acc2)`, where `acc2` is the
evaluated outcome of that step's `elif` comparison. -/
def runSteps (N : ℕ) (E T : ℚ) : List (ℕ × ℕ × ℕ × Bool) → Grid → Grid
  | [], L => L
  | s :: rest, L => runSteps N E T rest (MC_swap_b N L E T s.1 s.2.1 s.2.2.1 s.2.2.2)

/-- Number of cells equal to `1` (A atoms) in the N×N grid. -/
def countOnes (N : ℕ) (L : Grid) : ℕ :=
  ∑ p ∈ Finset.range N ×ˢ Finset.range N, if L p.1 p.2 = 1 then 1 else 0

/-- `n_a = int(N**2*Xa)` from line 26.  Python's `int()` truncates toward
zero, which is the floor for the non-negative values arising from
`Xa ∈ [0, 1]`. -/
def n_a (N : ℕ) (Xa : ℚ) : ℕ := (⌊(N : ℚ) ^ 2 * Xa⌋).toNat

/-- `n_b = int(N**2*(1-Xa))` from line 26.  Note: computed independently of
`n_a`, NOT as `N² - n_a`. -/
def n_b (N : ℕ) (Xa : ℚ) : ℕ := (⌊(N : ℚ) ^ 2 * (1 - Xa)⌋).toNat

/-- The flat array `np.append(np.ones(n_a), np.zeros(n_b))` of line 27. -/
def initFlat (N : ℕ) (Xa : ℚ) : List ℤ :=
  List.replicate (n_a N Xa) 1 ++ List.replicate (n_b N Xa) 0

/-- `np.reshape(N, N)` of line 27: succeeds (row-major) iff the flat list
has exactly `N*N` entries; numpy raises `ValueError` otherwise, modelled
by `none`. -/
def reshape (N : ℕ) (l : List ℤ) : Option Grid :=
  if l.length = N * N then some (fun i j => l.getD (i * N + j) 0) else none

/-- `nCr` (lines 105–107): `f(n) // f(r) // f(n-r)` with integer
division. -/
def nCr (n r : ℕ) : ℕ := n.factorial / r.factorial / (n - r).factorial

/-- The theoretical binomial histogram entry `prob[i]` of `test2D`
(lines 135–138): `nCr(4,i) * Frac * abs(N)**2` (for `N : ℕ`, `abs(N) = N`). -/
def theoretical (N : ℕ) (Xa : ℚ) (i : ℕ) : ℚ :=
  (nCr 4 i : ℚ) * (Xa * Xa ^ (4 - i) * (1 - Xa) ^ i
    + (1 - Xa) * Xa ^ i * (1 - Xa) ^ (4 - i)) * (N : ℚ) ^ 2

/-- The increment `h[b] = h[b] + 1` on a length-5 tally array
(lines 128/130).  For the binary lattices in scope the bucket `b` is
always in `[0, 4]`; out-of-range buckets (where numpy would raise) leave
the tally unchanged. -/
def bump (h : Fin 5 → ℕ) (b : ℤ) : Fin 5 → ℕ :=
  fun k => if ((k : ℕ) : ℤ) = b then h k + 1 else h k

/-- The bond count of the statistics scan (lines 121–126):
`int(alloy[down,j] + alloy[up,j] + alloy[i,right] + alloy[i,left])` with
`up = i - 2 % N`, `down = i % N`, `left = j - 2 % N`, `right = j % N`. -/
def statBond (N : ℕ) (L : Grid) (i j : ℕ) : ℤ :=
  L (statIdxFwd N i) j + L (statIdxBack N i) j
    + L i (statIdxFwd N j) + L i (statIdxBack N j)

/-- The body of the double scan loop of `test2D` (lines 127–130): tally the
site's bond count into `n_a` if the site holds `0`, into `n_b`
otherwise. -/
def tstep (N : ℕ) (L : Grid) (p : (Fin 5 → ℕ) × (Fin 5 → ℕ)) (s : ℕ × ℕ) :
    (Fin 5 → ℕ) × (Fin 5 → ℕ) :=
  if L s.1 s.2 = 0 then (bump p.1 (statBond N L s.1 s.2), p.2)
  else (p.1, bump p.2 (statBond N L s.1 s.2))

/-- The row-major list of the N×N sites scanned by `test2D`'s double
loop (lines 118–119). -/
def sites (N : ℕ) : List (ℕ × ℕ) :=
  ((List.range N).map fun i => (List.range N).map fun j => (i, j)).flatten

/-- The pair of tally arrays `(n_a, n_b)` produced by `test2D`'s scan
(lines 116–130), both starting from `np.zeros(5)`. -/
def tally (N : ℕ) (L : Grid) : (Fin 5 → ℕ) × (Fin 5 → ℕ) :=
  (sites N).foldl (tstep N L) (fun _ => 0, fun _ => 0)

/-- The merged histogram `n = n_a + np.flip(n_b)` of line 132:
`np.flip` reverses the length-5 array, so entry `k` is
`n_a[k] + n_b[4-k]`. -/
def merged (N : ℕ) (L : Grid) (k : Fin 5) : ℕ :=
  (tally N L).1 k + (tally N L).2 ⟨4 - (k : ℕ), by omega⟩

/-- The number of a site's four resolved statistics-scan reads whose value
differs from the site's own value (the site's unlike-neighbour count). -/
def unlikeCount (N : ℕ) (L : Grid) (i j : ℕ) : ℕ :=
  (if L (statIdxFwd N i) j ≠ L i j then 1 else 0)
  + (if L (statIdxBack N i) j ≠ L i j then 1 else 0)
  + (if L i (statIdxFwd N j) ≠ L i j then 1 else 0)
  + (if L i (statIdxBack N j) ≠ L i j then 1 else 0)

/-- The spec's unlike-bond rule (§4.3): for a site of species `s` whose
four neighbour reads sum to `b`, the unlike-bond count is `b` when the
site is B (0) and `4 - b` when it is A. -/
def unlikeBonds (species b : ℤ) : ℤ := if species = 0 then b else 4 - b

/-! ## Helper lemmas -/

lemma pmod_lt (a : ℤ) {N : ℕ} (h : 1 ≤ N) : pmod a N < N := by
  unfold pmod
  have h1 : 0 ≤ a % (N : ℤ) := Int.emod_nonneg a (by positivity)
  have h2 : a % (N : ℤ) < N := Int.emod_lt_of_pos a (by exact_mod_cast h)
  omega

lemma pmod_eq_self {x N : ℕ} (h : x < N) : pmod (x : ℤ) N = x := by
  unfold pmod
  rw [Int.emod_eq_of_lt (by positivity) (by exact_mod_cast h)]
  simp

lemma pmod_sub_two_emod (x : ℤ) (N : ℕ) :
    pmod (x - 2 % (N : ℤ)) N = pmod (x - 2) N := by
  unfold pmod
  rw [Int.sub_emod x (2 % N), Int.sub_emod x 2, Int.emod_emod_of_dvd]
  exact dvd_rfl

lemma MC_neighbor_lt {N : ℕ} (r c dir : ℕ) (hN : 1 ≤ N) (hr : r < N) (hc : c < N) :
    (MC_neighbor N r c dir).1 < N ∧ (MC_neighbor N r c dir).2 < N := by
  unfold MC_neighbor
  split_ifs <;> refine ⟨?_, ?_⟩ <;> dsimp only <;>
    first | exact hr | exact hc | exact pmod_lt _ hN

lemma setCell_hit (L : Grid) (r c : ℕ) (v : ℤ) : setCell L r c v r c = v := by
  simp [setCell]

lemma setCell_miss (L : Grid) (r c : ℕ) (v : ℤ) {i j : ℕ} (h : ¬(i = r ∧ j = c)) :
    setCell L r c v i j = L i j := by
  simp only [setCell, if_neg h]

lemma countOnes_congr {N : ℕ} {L L' : Grid}
    (h : ∀ i j, i < N → j < N → L i j = L' i j) : countOnes N L = countOnes N L' := by
  unfold countOnes
  refine Finset.sum_congr rfl fun p hp => ?_
  rcases Finset.mem_product.mp hp with ⟨h1, h2⟩
  rw [h p.1 p.2 (Finset.mem_range.mp h1) (Finset.mem_range.mp h2)]

lemma countOnes_swapCells {N : ℕ} (L : Grid) {r1 c1 r2 c2 : ℕ}
    (h1r : r1 < N) (h1c : c1 < N) (h2r : r2 < N) (h2c : c2 < N) :
    countOnes N (setCell (setCell L r1 c1 (L r2 c2)) r2 c2 (L r1 c1)) = countOnes N L := by
  by_cases hp : r1 = r2 ∧ c1 = c2
  · obtain ⟨h, h'⟩ := hp
    subst h; subst h'
    refine (countOnes_congr fun i j _ _ => ?_).symm
    by_cases hij : i = r1 ∧ j = c1
    · obtain ⟨hi, hj⟩ := hij; subst hi; subst hj; simp [setCell]
    · simp only [setCell, if_neg hij]
  · have hne : ((r1, c1) : ℕ × ℕ) ≠ (r2, c2) := by
      simpa [Prod.ext_iff] using hp
    have hg2 : ((r2, c2) : ℕ × ℕ) ∈ Finset.range N ×ˢ Finset.range N := by
      simp [Finset.mem_product, h2r, h2c]
    have hg1 : ((r1, c1) : ℕ × ℕ) ∈ (Finset.range N ×ˢ Finset.range N).erase (r2, c2) := by
      simp [Finset.mem_erase, hne, Finset.mem_product, h1r, h1c]
    set W : Grid := setCell (setCell L r1 c1 (L r2 c2)) r2 c2 (L r1 c1) with hW
    have e2 : W r2 c2 = L r1 c1 := by simp [hW, setCell]
    have e1 : W r1 c1 = L r2 c2 := by
      rw [hW, setCell_miss _ _ _ _ hp, setCell_hit]
    have eframe : ∑ p ∈ ((Finset.range N ×ˢ Finset.range N).erase (r2, c2)).erase (r1, c1),
        (if W p.1 p.2 = 1 then 1 else 0 : ℕ)
        = ∑ p ∈ ((Finset.range N ×ˢ Finset.range N).erase (r2, c2)).erase (r1, c1),
        (if L p.1 p.2 = 1 then 1 else 0 : ℕ) := by
      refine Finset.sum_congr rfl fun p hpm => ?_
      obtain ⟨hp1, hpm'⟩ := Finset.mem_erase.mp hpm
      obtain ⟨hp2, _⟩ := Finset.mem_erase.mp hpm'
      have m2 : ¬(p.1 = r2 ∧ p.2 = c2) := by
        intro hcon; exact hp2 (Prod.ext hcon.1 hcon.2)
      have m1 : ¬(p.1 = r1 ∧ p.2 = c1) := by
        intro hcon; exact hp1 (Prod.ext hcon.1 hcon.2)
      rw [hW, setCell_miss _ _ _ _ m2, setCell_miss _ _ _ _ m1]
    unfold countOnes
    rw [← Finset.add_sum_erase _ _ hg2, ← Finset.add_sum_erase _ _ hg1]
    conv_rhs => rw [← Finset.add_sum_erase _ _ hg2, ← Finset.add_sum_erase _ _ hg1]
    simp only []
    rw [e2, e1, eframe]
    omega

lemma countOnes_MC_swap_b {N : ℕ} (L : Grid) (E T : ℚ) {r1 c1 : ℕ} (dir : ℕ) (acc2 : Bool)
    (hN : 1 ≤ N) (hr : r1 < N) (hc : c1 < N) :
    countOnes N (MC_swap_b N L E T r1 c1 dir acc2) = countOnes N L := by
  obtain ⟨h2r, h2c⟩ := MC_neighbor_lt (N := N) r1 c1 dir hN hr hc
  unfold MC_swap_b
  split_ifs <;> first
    | exact countOnes_swapCells L hr hc h2r h2c
    | rfl

lemma MC_swap_b_frame (N : ℕ) (L : Grid) (E T : ℚ) (r1 c1 dir : ℕ) (acc2 : Bool)
    {i j : ℕ} (hij1 : ¬(i = r1 ∧ j = c1))
    (hij2 : ¬(i = (MC_neighbor N r1 c1 dir).1 ∧ j = (MC_neighbor N r1 c1 dir).2)) :
    MC_swap_b N L E T r1 c1 dir acc2 i j = L i j := by
  unfold MC_swap_b
  split_ifs <;> first
    | rw [setCell_miss _ _ _ _ hij2, setCell_miss _ _ _ _ hij1]
    | rfl

lemma MC_swap_b_eq_atoms (N : ℕ) (L : Grid) (E T : ℚ) (r1 c1 dir : ℕ) (acc2 : Bool)
    (h : L r1 c1 = L (MC_neighbor N r1 c1 dir).1 (MC_neighbor N r1 c1 dir).2) :
    MC_swap_b N L E T r1 c1 dir acc2 = L := by
  have hswap : setCell
      (setCell L r1 c1 (L (MC_neighbor N r1 c1 dir).1 (MC_neighbor N r1 c1 dir).2))
      (MC_neighbor N r1 c1 dir).1 (MC_neighbor N r1 c1 dir).2 (L r1 c1) = L := by
    funext i j
    by_cases h2 : i = (MC_neighbor N r1 c1 dir).1 ∧ j = (MC_neighbor N r1 c1 dir).2
    · obtain ⟨hi, hj⟩ := h2; subst hi; subst hj
      rw [setCell_hit]; exact h
    · rw [setCell_miss _ _ _ _ h2]
      by_cases h1 : i = r1 ∧ j = c1
      · obtain ⟨hi, hj⟩ := h1; subst hi; subst hj
        rw [setCell_hit]; exact h.symm
      · rw [setCell_miss _ _ _ _ h1]
  unfold MC_swap_b
  split_ifs <;> first | exact hswap | rfl

lemma statIdxBack_eq_swapIdxBack (N x : ℕ) : statIdxBack N x = swapIdxBack N x :=
  pmod_sub_two_emod (x : ℤ) N

/-! ## Claim theorems -/

/-- C7: for every `N ≥ 1` and every site `(i, j)`, the four lattice cells
read as up/down/left/right neighbours by the statistics scan of `test2D`
(indices `i - 2 % N`, `i % N`, `j - 2 % N`, `j % N`, with numpy wrap-around
indexing) are exactly the cells read by `MC_swap`'s bond computation for
that site (indices `(i-2) % N`, `i % N`, `(j-2) % N`, `j % N`): the two
modules resolve the identical neighbour cells. -/
theorem C7_stats_matches_swap_cells (N i j : ℕ) (hN : 1 ≤ N) (hi : i < N) (hj : j < N) :
    (statIdxFwd N i, j) = (swapIdxFwd N i, j)
    ∧ (statIdxBack N i, j) = (swapIdxBack N i, j)
    ∧ (i, statIdxFwd N j) = (i, swapIdxFwd N j)
    ∧ (i, statIdxBack N j) = (i, swapIdxBack N j) := by
  rw [statIdxBack_eq_swapIdxBack, statIdxBack_eq_swapIdxBack]
  exact ⟨rfl, rfl, rfl, rfl⟩

/-- Witness for C7 at `N = 3`, site `(1, 2)`. -/
theorem C7_stats_matches_swap_cells_witness :
    (statIdxFwd 3 1, 2) = (swapIdxFwd 3 1, 2)
    ∧ (statIdxBack 3 1, 2) = (swapIdxBack 3 1, 2)
    ∧ (1, statIdxFwd 3 2) = (1, swapIdxFwd 3 2)
    ∧ (1, statIdxBack 3 2) = (1, swapIdxBack 3 2) :=
  C7_stats_matches_swap_cells 3 1 2 (by decide) (by decide) (by decide)

/-- C2 counterexample: at `N = 3`, site `(0, 0)`, direction 1 ("up"), the
claim predicts the neighbour `((0 - 1) mod 3, 0) = (2, 0)`, but the code
computes `row2 = (0 - 2) % 3 = 1`, so the neighbour is `(1, 0)`. -/
theorem C2_counterexample : MC_neighbor 3 0 0 1 ≠ (pmod ((0 : ℤ) - 1) 3, 0) := by
  decide

/-- C2 amended: for every site `(r, c)` with `r, c ∈ [0, N)`, the code's
neighbour is: direction "up": `((r - 2) mod N, c)` (offset −2, not −1);
"right": `(r, c mod N) = (r, c)` — the site itself; "down":
`(r mod N, c) = (r, c)` — the site itself; "left": `(r, (r - 2) mod N)`,
the column being computed from the ROW index. -/
theorem C2_amended_neighbor (N r c : ℕ) (hr : r < N) (hc : c < N) :
    MC_neighbor N r c 1 = (pmod ((r : ℤ) - 2) N, c)
    ∧ MC_neighbor N r c 2 = (r, c)
    ∧ MC_neighbor N r c 3 = (r, c)
    ∧ MC_neighbor N r c 4 = (r, pmod ((r : ℤ) - 2) N) := by
  refine ⟨rfl, ?_, ?_, rfl⟩
  · unfold MC_neighbor
    norm_num [pmod_eq_self hc]
  · unfold MC_neighbor
    norm_num [pmod_eq_self hr]

/-- Witness for the amended C2 at `N = 3`, site `(1, 2)`. -/
theorem C2_amended_neighbor_witness :
    MC_neighbor 3 1 2 1 = (pmod ((1 : ℤ) - 2) 3, 2)
    ∧ MC_neighbor 3 1 2 2 = (1, 2)
    ∧ MC_neighbor 3 1 2 3 = (1, 2)
    ∧ MC_neighbor 3 1 2 4 = (1, pmod ((1 : ℤ) - 2) 3) :=
  C2_amended_neighbor 3 1 2 (by decide) (by decide)

/-- C9: for every `N ≥ 1` and `Xa ∈ [0, 1]`, the theoretical length-5
histogram of `test2D` sums to exactly `N²` in exact rational
arithmetic. -/
theorem C9_theoretical_sum (N : ℕ) (Xa : ℚ) (hN : 1 ≤ N) (h0 : 0 ≤ Xa) (h1 : Xa ≤ 1) :
    ∑ i ∈ Finset.range 5, theoretical N Xa i = (N : ℚ) ^ 2 := by
  simp only [Finset.sum_range_succ, Finset.sum_range_zero, theoretical]
  norm_num [nCr, Nat.factorial]
  ring

/-- Witness for C9 at `N = 2`, `Xa = 1/2`. -/
theorem C9_theoretical_sum_witness :
    ∑ i ∈ Finset.range 5, theoretical 2 (1 / 2) i = ((2 : ℕ) : ℚ) ^ 2 :=
  C9_theoretical_sum 2 (1 / 2) (by norm_num) (by norm_num) (by norm_num)

/-- C1 (code bug evaluation): at `N = 3`, `Xa = 1/2`, the code computes
`n_a = int(9·0.5) = 4` and, independently, `n_b = int(9·0.5) = 4`, so the
flat array has only 8 entries and `reshape(3, 3)` fails (numpy raises
`ValueError`), contradicting the claim that the construction never fails
and returns `floor(N²·Xa) = 4` ones and `N² − 4 = 5` zeros. -/
theorem C1_create_alloy_fails :
    n_a 3 (1 / 2) = 4 ∧ n_b 3 (1 / 2) = 4 ∧ (initFlat 3 (1 / 2)).length = 8
    ∧ 3 ^ 2 - n_a 3 (1 / 2) = 5 ∧ reshape 3 (initFlat 3 (1 / 2)) = none := by
  have ha : n_a 3 (1 / 2) = 4 := by
    unfold n_a
    norm_num
    decide
  have hb : n_b 3 (1 / 2) = 4 := by
    unfold n_b
    norm_num
    decide
  have hlen : (initFlat 3 (1 / 2)).length = 8 := by
    rw [initFlat, List.length_append, List.length_replicate, List.length_replicate, ha, hb]
  have hne : ¬(initFlat 3 (1 / 2)).length = 3 * 3 := by
    rw [hlen]
    norm_num
  refine ⟨ha, hb, hlen, by rw [ha]; norm_num, ?_⟩
  rw [reshape, if_neg hne]

/-- C3: in every swap step, if the two selected atoms are equal the energy
delta is `0`; otherwise `e = E * ((after1 + after2) - (before1 + before2))`
where each site's unlike-bond count is the sum of its four resolved
neighbour reads if the site's species is B (0) and `4` minus that sum if it
is A (1), "before" using the site's current species and "after" the other
site's species at the same site. -/
theorem C3_energy_delta (N : ℕ) (L : Grid) (E : ℚ) (r1 c1 r2 c2 : ℕ)
    (hb1 : L r1 c1 = 0 ∨ L r1 c1 = 1) (hb2 : L r2 c2 = 0 ∨ L r2 c2 = 1) :
    (L r1 c1 = L r2 c2 → energyDelta N L E r1 c1 r2 c2 = 0)
    ∧ (L r1 c1 ≠ L r2 c2 → energyDelta N L E r1 c1 r2 c2 =
        E * (((unlikeBonds (L r2 c2) (bondsAt N L r1 c1)
              + unlikeBonds (L r1 c1) (bondsAt N L r2 c2))
           - (unlikeBonds (L r1 c1) (bondsAt N L r1 c1)
              + unlikeBonds (L r2 c2) (bondsAt N L r2 c2)) : ℤ) : ℚ)) := by
  constructor
  · intro h
    unfold energyDelta
    rw [if_pos h]
  · intro h
    rcases hb1 with h1 | h1 <;> rcases hb2 with h2 | h2
    · exact absurd (h1.trans h2.symm) h
    · unfold energyDelta
      rw [if_neg h, if_pos h1]
      simp only [unlikeBonds, h1, h2, if_pos, one_ne_zero, if_false, if_true]
      push_cast
      ring
    · unfold energyDelta
      rw [if_neg h, if_neg (by rw [h1]; norm_num)]
      simp only [unlikeBonds, h1, h2, one_ne_zero, if_false, if_true]
      push_cast
      ring
    · exact absurd (h1.trans h2.symm) h

/-- Witness for C3 at `N = 2`, the all-B lattice, sites `(0,0)` and
`(0,1)`. -/
theorem C3_energy_delta_witness :
    energyDelta 2 (fun _ _ => 0) 1 0 0 0 1 = 0 :=
  (C3_energy_delta 2 (fun _ _ => 0) 1 0 0 0 1 (Or.inl rfl) (Or.inl rfl)).1 rfl

/-- C4: the two selected cells' values are exchanged exactly when `e < 0`
or `exp(-e/(kB·T))` is strictly greater than the uniform draw
`u ∈ [0, 1)`, with `kB = 8.617332e-5`; in particular the swap is
unconditional when `e < 0`. -/
theorem C4_metropolis_acceptance (N : ℕ) (L : Grid) (E T : ℚ) (r1 c1 dir : ℕ) (u : ℝ)
    (h2 : Decidable (elifCond N L E T r1 c1 dir u)) (hu : u < 1) :
    MC_swap N L E T r1 c1 dir u h2 =
      setCell (setCell L r1 c1 (L (MC_neighbor N r1 c1 dir).1 (MC_neighbor N r1 c1 dir).2))
        (MC_neighbor N r1 c1 dir).1 (MC_neighbor N r1 c1 dir).2 (L r1 c1)
    ↔ (energyDelta N L E r1 c1 (MC_neighbor N r1 c1 dir).1 (MC_neighbor N r1 c1 dir).2 < 0
       ∨ Real.exp (((-(energyDelta N L E r1 c1 (MC_neighbor N r1 c1 dir).1
            (MC_neighbor N r1 c1 dir).2) / (kB * T) : ℚ) : ℝ)) > u) := by
  unfold MC_swap MC_swap_b
  by_cases he : energyDelta N L E r1 c1 (MC_neighbor N r1 c1 dir).1
      (MC_neighbor N r1 c1 dir).2 < 0
  · rw [if_pos he]
    exact iff_of_true rfl (Or.inl he)
  · rw [if_neg he]
    by_cases hc : elifCond N L E T r1 c1 dir u
    · rw [decide_eq_true hc, if_pos rfl]
      exact iff_of_true rfl (Or.inr hc)
    · rw [decide_eq_false hc]
      simp only [Bool.false_eq_true, if_false]
      constructor
      · intro hLS
        exfalso
        by_cases hatom : L r1 c1 = L (MC_neighbor N r1 c1 dir).1 (MC_neighbor N r1 c1 dir).2
        · apply hc
          have he0 : energyDelta N L E r1 c1 (MC_neighbor N r1 c1 dir).1
              (MC_neighbor N r1 c1 dir).2 = 0 := by
            unfold energyDelta
            rw [if_pos hatom]
          unfold elifCond
          rw [he0]
          simpa using hu
        · have hne : ¬(r1 = (MC_neighbor N r1 c1 dir).1 ∧ c1 = (MC_neighbor N r1 c1 dir).2) := by
            intro hcon
            exact hatom (by rw [← hcon.1, ← hcon.2])
          have hval : L r1 c1
              = L (MC_neighbor N r1 c1 dir).1 (MC_neighbor N r1 c1 dir).2 := by
            have hfun := congrFun (congrFun hLS r1) c1
            rwa [setCell_miss _ _ _ _ hne, setCell_hit] at hfun
          exact hatom hval
      · intro hOr
        rcases hOr with h | h
        · exact absurd h he
        · exact absurd h hc

/-- Witness for C4 at `N = 2`, the all-B lattice, site `(0,0)`,
direction 1, draw `u = 0` (the comparison decided by `exp x > 0`). -/
theorem C4_metropolis_acceptance_witness :
    MC_swap 2 (fun _ _ => 0) 1 300 0 0 1 0 (isTrue (Real.exp_pos _)) =
      setCell (setCell (fun _ _ => 0) 0 0
          (((fun _ _ => (0 : ℤ)) : Grid) (MC_neighbor 2 0 0 1).1 (MC_neighbor 2 0 0 1).2))
        (MC_neighbor 2 0 0 1).1 (MC_neighbor 2 0 0 1).2 (((fun _ _ => (0 : ℤ)) : Grid) 0 0)
    ↔ (energyDelta 2 (fun _ _ => 0) 1 0 0 (MC_neighbor 2 0 0 1).1 (MC_neighbor 2 0 0 1).2 < 0
       ∨ Real.exp (((-(energyDelta 2 (fun _ _ => 0) 1 0 0 (MC_neighbor 2 0 0 1).1
            (MC_neighbor 2 0 0 1).2) / (kB * 300) : ℚ) : ℝ)) > (0 : ℝ)) :=
  C4_metropolis_acceptance 2 (fun _ _ => 0) 1 300 0 0 1 0 (isTrue (Real.exp_pos _))
    (by norm_num)

/-- C5: every single `MC_swap` call preserves the number of cells equal
to 1 (hence also the number equal to 0), and consequently the lattice
after any sequence of driver steps has the same A-cell count as the
initial lattice. -/
theorem C5_species_conservation (N : ℕ) (E T : ℚ) (hN : 1 ≤ N) :
    (∀ (L : Grid) (r1 c1 dir : ℕ) (u : ℝ) (h2 : Decidable (elifCond N L E T r1 c1 dir u)),
      r1 < N → c1 < N →
      countOnes N (MC_swap N L E T r1 c1 dir u h2) = countOnes N L)
    ∧ (∀ (steps : List (ℕ × ℕ × ℕ × Bool)) (L : Grid),
      (∀ s ∈ steps, s.1 < N ∧ s.2.1 < N) →
      countOnes N (runSteps N E T steps L) = countOnes N L) := by
  constructor
  · intro L r1 c1 dir u h2 hr hc
    exact countOnes_MC_swap_b L E T dir _ hN hr hc
  · intro steps
    induction steps with
    | nil =>
      intro L _
      rfl
    | cons s rest ih =>
      intro L hmem
      rw [runSteps]
      rw [ih _ fun x hx => hmem x (List.mem_cons_of_mem s hx)]
      exact countOnes_MC_swap_b L E T _ _ hN (hmem s (List.mem_cons_self s rest)).1
        (hmem s (List.mem_cons_self s rest)).2

/-- Witness for C5 at `N = 2`, the all-B lattice, site `(0,0)`,
direction 1, draw `u = 0`. -/
theorem C5_species_conservation_witness :
    countOnes 2 (MC_swap 2 (fun _ _ => 0) 1 300 0 0 1 0 (isTrue (Real.exp_pos _)))
      = countOnes 2 (fun _ _ => 0) :=
  (C5_species_conservation 2 1 300 (by norm_num)).1 (fun _ _ => 0) 0 0 1 0
    (isTrue (Real.exp_pos _)) (by norm_num) (by norm_num)

/-- C6: `MC_swap` never changes any cell other than the two selected
sites, and the lattice is completely unchanged both when the step is
rejected and when the two selected atoms have equal species. -/
theorem C6_frame_and_no_ops (N : ℕ) (L : Grid) (E T : ℚ) (r1 c1 dir : ℕ) (u : ℝ)
    (h2 : Decidable (elifCond N L E T r1 c1 dir u)) :
    (∀ i j, ¬(i = r1 ∧ j = c1)
      → ¬(i = (MC_neighbor N r1 c1 dir).1 ∧ j = (MC_neighbor N r1 c1 dir).2)
      → MC_swap N L E T r1 c1 dir u h2 i j = L i j)
    ∧ (L r1 c1 = L (MC_neighbor N r1 c1 dir).1 (MC_neighbor N r1 c1 dir).2
      → MC_swap N L E T r1 c1 dir u h2 = L)
    ∧ (¬(energyDelta N L E r1 c1 (MC_neighbor N r1 c1 dir).1 (MC_neighbor N r1 c1 dir).2 < 0
         ∨ elifCond N L E T r1 c1 dir u)
      → MC_swap N L E T r1 c1 dir u h2 = L) := by
  refine ⟨fun i j hij1 hij2 => MC_swap_b_frame N L E T r1 c1 dir _ hij1 hij2,
    fun h => MC_swap_b_eq_atoms N L E T r1 c1 dir _ h, fun h => ?_⟩
  have he : ¬ energyDelta N L E r1 c1 (MC_neighbor N r1 c1 dir).1
      (MC_neighbor N r1 c1 dir).2 < 0 := fun ha => h (Or.inl ha)
  have hc : ¬ elifCond N L E T r1 c1 dir u := fun hb => h (Or.inr hb)
  unfold MC_swap MC_swap_b
  rw [if_neg he, decide_eq_false hc]
  rfl

/-- Witness for C6: the frame property at `N = 2`, the all-B lattice,
site `(0,0)`, direction 1, cell `(1,1)` untouched. -/
theorem C6_frame_and_no_ops_witness :
    MC_swap 2 (fun _ _ => 0) 1 300 0 0 1 0 (isTrue (Real.exp_pos _)) 1 1
      = ((fun _ _ => (0 : ℤ)) : Grid) 1 1 :=
  (C6_frame_and_no_ops 2 (fun _ _ => 0) 1 300 0 0 1 0 (isTrue (Real.exp_pos _))).1 1 1
    (by decide) (by decide)

/-! ## The statistics scan (`test2D`) and its histograms -/

lemma foldl_tstep_fst (N : ℕ) (L : Grid) (l : List (ℕ × ℕ)) (p : (Fin 5 → ℕ) × (Fin 5 → ℕ)) (k : Fin 5) :
    (l.foldl (tstep N L) p).1 k
      = p.1 k + l.countP (fun s => decide (L s.1 s.2 = 0 ∧ statBond N L s.1 s.2 = ((k : ℕ) : ℤ))) := by
  induction l generalizing p with
  | nil => simp
  | cons s l ih =>
    rw [List.foldl_cons, ih, List.countP_cons]
    have hstep : (tstep N L p s).1 k
        = p.1 k + (if (L s.1 s.2 = 0 ∧ statBond N L s.1 s.2 = ((k : ℕ) : ℤ)) then 1 else 0) := by
      unfold tstep bump
      by_cases h0 : L s.1 s.2 = 0
      · rw [if_pos h0]
        dsimp only
        by_cases hb : ((k : ℕ) : ℤ) = statBond N L s.1 s.2
        · rw [if_pos hb, if_pos ⟨h0, hb.symm⟩]
        · rw [if_neg hb, if_neg (fun hcon => hb hcon.2.symm)]
          simp
      · rw [if_neg h0, if_neg (fun hcon => h0 hcon.1)]
        simp
    rw [hstep]
    simp only [decide_eq_true_eq]
    omega

lemma foldl_tstep_snd (N : ℕ) (L : Grid) (l : List (ℕ × ℕ)) (p : (Fin 5 → ℕ) × (Fin 5 → ℕ)) (k : Fin 5) :
    (l.foldl (tstep N L) p).2 k
      = p.2 k + l.countP (fun s => decide (¬L s.1 s.2 = 0 ∧ statBond N L s.1 s.2 = ((k : ℕ) : ℤ))) := by
  induction l generalizing p with
  | nil => simp
  | cons s l ih =>
    rw [List.foldl_cons, ih, List.countP_cons]
    have hstep : (tstep N L p s).2 k
        = p.2 k + (if (¬L s.1 s.2 = 0 ∧ statBond N L s.1 s.2 = ((k : ℕ) : ℤ)) then 1 else 0) := by
      unfold tstep bump
      by_cases h0 : L s.1 s.2 = 0
      · rw [if_pos h0, if_neg (fun hcon => hcon.1 h0)]
        simp
      · rw [if_neg h0]
        dsimp only
        by_cases hb : ((k : ℕ) : ℤ) = statBond N L s.1 s.2
        · rw [if_pos hb, if_pos ⟨h0, hb.symm⟩]
        · rw [if_neg hb, if_neg (fun hcon => hb hcon.2.symm)]
          simp
    rw [hstep]
    simp only [decide_eq_true_eq]
    omega

lemma unlike_vs_bond (N : ℕ) (L : Grid) (hb : ∀ i j, L i j = 0 ∨ L i j = 1) (i j : ℕ)
    (k : ℕ) (hk : k ≤ 4) :
    ((L i j = 0 ∧ statBond N L i j = (k : ℤ)) ↔ (L i j = 0 ∧ unlikeCount N L i j = k))
    ∧ ((¬L i j = 0 ∧ statBond N L i j = ((4 - k : ℕ) : ℤ))
        ↔ (¬L i j = 0 ∧ unlikeCount N L i j = k)) := by
  have ha := hb (statIdxFwd N i) j
  have hbk := hb (statIdxBack N i) j
  have hc := hb i (statIdxFwd N j)
  have hd := hb i (statIdxBack N j)
  have hv := hb i j
  unfold statBond unlikeCount
  rcases hv with hv | hv <;>
    rcases ha with ha | ha <;> rcases hbk with hbk | hbk <;>
      rcases hc with hc | hc <;> rcases hd with hd | hd <;>
    rw [hv, ha, hbk, hc, hd] <;> norm_num <;> omega

lemma countP_split (P R : ℕ × ℕ → Prop) [DecidablePred P] [DecidablePred R]
    (l : List (ℕ × ℕ)) :
    l.countP (fun a => decide (P a ∧ R a)) + l.countP (fun a => decide (¬P a ∧ R a))
      = l.countP (fun a => decide (R a)) := by
  induction l with
  | nil => rfl
  | cons a l ih =>
    simp only [List.countP_cons, decide_eq_true_eq]
    by_cases hP : P a <;> by_cases hR : R a
    · rw [if_pos ⟨hP, hR⟩, if_neg (fun h => h.1 hP), if_pos hR]
      omega
    · rw [if_neg (fun h => hR h.2), if_neg (fun h => hR h.2), if_neg hR]
      omega
    · rw [if_neg (fun h => hP h.1), if_pos ⟨hP, hR⟩, if_pos hR]
      omega
    · rw [if_neg (fun h => hR h.2), if_neg (fun h => hR h.2), if_neg hR]
      omega

lemma merged_eq_countP (N : ℕ) (L : Grid) (hb : ∀ i j, L i j = 0 ∨ L i j = 1) (k : Fin 5) :
    merged N L k
      = (sites N).countP (fun s => decide (unlikeCount N L s.1 s.2 = (k : ℕ))) := by
  unfold merged tally
  rw [foldl_tstep_fst, foldl_tstep_snd]
  dsimp only
  have hc1 : (sites N).countP
        (fun s => decide (L s.1 s.2 = 0 ∧ statBond N L s.1 s.2 = ((k : ℕ) : ℤ)))
      = (sites N).countP
        (fun s => decide (L s.1 s.2 = 0 ∧ unlikeCount N L s.1 s.2 = (k : ℕ))) :=
    List.countP_congr fun s _ => by
      simp only [decide_eq_true_eq]
      exact (unlike_vs_bond N L hb s.1 s.2 (k : ℕ) (by omega)).1
  have hc2 : (sites N).countP
        (fun s => decide (¬L s.1 s.2 = 0 ∧ statBond N L s.1 s.2 = ((4 - (k : ℕ) : ℕ) : ℤ)))
      = (sites N).countP
        (fun s => decide (¬L s.1 s.2 = 0 ∧ unlikeCount N L s.1 s.2 = (k : ℕ))) :=
    List.countP_congr fun s _ => by
      simp only [decide_eq_true_eq]
      exact (unlike_vs_bond N L hb s.1 s.2 (k : ℕ) (by omega)).2
  rw [hc1, hc2]
  have hsplit := countP_split (fun s => L s.1 s.2 = 0)
    (fun s => unlikeCount N L s.1 s.2 = (k : ℕ)) (sites N)
  omega

lemma sum_range5_countP (l : List (ℕ × ℕ)) (f : ℕ × ℕ → ℕ) :
    ∑ m ∈ Finset.range 5, l.countP (fun s => decide (f s = m))
      = l.countP (fun s => decide (f s < 5)) := by
  induction l with
  | nil => simp
  | cons a l ih =>
    simp only [List.countP_cons, decide_eq_true_eq]
    rw [Finset.sum_add_distrib, ih, Finset.sum_ite_eq (Finset.range 5) (f a) fun _ => 1]
    simp [Finset.mem_range]

lemma unlikeCount_le_four (N : ℕ) (L : Grid) (i j : ℕ) : unlikeCount N L i j ≤ 4 := by
  unfold unlikeCount
  split_ifs <;> norm_num

lemma sites_length (N : ℕ) : (sites N).length = N ^ 2 := by
  unfold sites
  rw [List.length_flatten, List.map_map]
  have h : (List.length ∘ fun i => List.map (fun j => (i, j)) (List.range N))
      = fun (_ : ℕ) => N := by
    funext i
    simp
  rw [h, List.map_const', List.sum_replicate, smul_eq_mul, List.length_range, sq]

theorem C8_observed_sum (N : ℕ) (L : Grid) (hb : ∀ i j, L i j = 0 ∨ L i j = 1) :
    ∑ k : Fin 5, merged N L k = N ^ 2 := by
  have h1 : ∑ k : Fin 5, merged N L k
      = ∑ m ∈ Finset.range 5,
          (sites N).countP (fun s => decide (unlikeCount N L s.1 s.2 = m)) := by
    rw [← Fin.sum_univ_eq_sum_range]
    exact Finset.sum_congr rfl fun k _ => merged_eq_countP N L hb k
  rw [h1, sum_range5_countP, List.countP_eq_length.mpr]
  · exact sites_length N
  · intro s _
    simp only [decide_eq_true_eq]
    exact Nat.lt_succ_of_le (unlikeCount_le_four N L s.1 s.2)

/-- Witness for C8 at `N = 2` and the all-B lattice. -/
theorem C8_observed_sum_witness :
    ∑ k : Fin 5, merged 2 (fun _ _ => 0) k = 2 ^ 2 :=
  C8_observed_sum 2 (fun _ _ => 0) fun _ _ => Or.inl rfl

/-- C10: for every binary N×N lattice, the merged histogram
`n = n_a + np.flip(n_b)` of `test2D` satisfies: entry `k` is the number of
lattice sites, of either species, whose unlike-neighbour count — the
number of the site's four resolved neighbour reads whose value differs
from the site's own value — is exactly `k`. -/
theorem C10_merged_counts_unlike (N : ℕ) (L : Grid)
    (hb : ∀ i j, L i j = 0 ∨ L i j = 1) (k : Fin 5) :
    merged N L k = (sites N).countP (fun s => decide (unlikeCount N L s.1 s.2 = (k : ℕ))) :=
  merged_eq_countP N L hb k

/-- Witness for C10 at `N = 2`, the all-B lattice, bucket `k = 0`. -/
theorem C10_merged_counts_unlike_witness :
    merged 2 (fun _ _ => 0) 0
      = (sites 2).countP (fun s => decide (unlikeCount 2 (fun _ _ => 0) s.1 s.2 = ((0 : Fin 5) : ℕ))) :=
  C10_merged_counts_unlike 2 (fun _ _ => 0) (fun _ _ => Or.inl rfl) 0
